import Mathlib

/-!
Shallow embedding of `core/node/libp2p/rcmgr.go`: the libp2p resource-manager
introspection and reconfiguration surface (`NetStat`, `NetLimit`,
`NetSetLimit`) and the enabled/disabled decision of the `ResourceManager`
constructor.

Go strings are embedded as lists of characters; the external
`network.ResourceManager` collaborator is embedded as a record holding
exactly what `rcmgr.go` observes of it: the optional aggregate state (the
`rcmgr.ResourceManagerState` type assertion), and one scope per view
operation, each scope holding its usage snapshot and, when it implements
`rcmgr.ResourceScopeLimiter`, its current limit. `peer.Decode` is an
external library function and is passed in as a parameter.
-/

namespace Rcmgr

/-- Go strings, embedded as lists of characters. -/
abbrev GoStr := List Char

/-- Modelled from the spec: `config.ResourceMgrSystemScope` of the `config`
package (not under `src/`); §3 of the spec names the address form `system`. -/
def ResourceMgrSystemScope : GoStr := "system".toList

/-- Modelled from the spec: `config.ResourceMgrTransientScope`; §3 names the
address form `transient`. -/
def ResourceMgrTransientScope : GoStr := "transient".toList

/-- Modelled from the spec: `config.ResourceMgrServiceScopePrefix`; §3 names
the address form `svc:<service-name>`, and `NetStat` slices `scope[4:]`. -/
def ResourceMgrServiceScopePrefix : GoStr := "svc:".toList

/-- Modelled from the spec: `config.ResourceMgrProtocolScopePrefix`; §3 names
the address form `proto:<protocol-id>`, and `NetStat` slices `scope[6:]`. -/
def ResourceMgrProtocolScopePrefix : GoStr := "proto:".toList

/-- Modelled from the spec: `config.ResourceMgrPeerScopePrefix`; §3 names the
address form `peer:<peer-id>`, and `NetStat` slices `scope[5:]`. -/
def ResourceMgrPeerScopePrefix : GoStr := "peer:".toList

/-- The literal scope string `all`, recognized only by `NetStat`. -/
def allScope : GoStr := "all".toList

/-- `network.ScopeStat` of go-libp2p-core, as copied around by `rcmgr.go`. -/
structure ScopeStat where
  NumStreamsInbound : Int
  NumStreamsOutbound : Int
  NumConnsInbound : Int
  NumConnsOutbound : Int
  NumFD : Int
  Memory : Int
deriving DecidableEq

/-- The zero `network.ScopeStat`, what a null scope's `Stat()` returns. -/
def zeroScopeStat : ScopeStat := ⟨0, 0, 0, 0, 0, 0⟩

/-- `rcmgr.BaseLimit` of go-libp2p-resource-manager: the seven fixed integer
ceilings. -/
structure BaseLimit where
  Streams : Int
  StreamsInbound : Int
  StreamsOutbound : Int
  Conns : Int
  ConnsInbound : Int
  ConnsOutbound : Int
  FD : Int
deriving DecidableEq

/-- `rcmgr.MemoryLimit` of go-libp2p-resource-manager: the dynamic memory
budget (fraction of system memory clamped to a range). The `float64`
fraction is embedded as a rational; `rcmgr.go` only stores and copies it. -/
structure MemoryLimit where
  MemoryFraction : Rat
  MinMemory : Int
  MaxMemory : Int
deriving DecidableEq

/-- The `rcmgr.Limit` interface as `rcmgr.go` observes it through its type
switch: the two concrete variants `*rcmgr.StaticLimit` and
`*rcmgr.DynamicLimit`, plus an extra constructor standing for any other
implementation of the open Go interface (the `default:` arm of the switch). -/
inductive Limit where
  | staticLimit (memory : Int) (base : BaseLimit)
  | dynamicLimit (memoryLimit : MemoryLimit) (base : BaseLimit)
  | unknownLimit
deriving DecidableEq

/-- `peer.ID` of go-libp2p-core, identified by its `Pretty()` rendering. -/
structure PeerId where
  pretty : GoStr
deriving DecidableEq

/-- `protocol.ID` of go-libp2p-core: a string wrapper (`rcmgr.go` converts
with `protocol.ID(proto)` and back with `string(proto)`). -/
structure ProtocolId where
  protoId : GoStr
deriving DecidableEq

/-- Modelled from the spec: `config.ResourceMgrScopeConfig` of the `config`
package (not under `src/`): per §6 a Limit-shaped value with an explicit
`dynamic: bool` discriminator; the field set is exactly the one `rcmgr.go`
reads and writes (`Dynamic`, `Memory`, `MemoryFraction`, `MinMemory`,
`MaxMemory`, and the seven `BaseLimit` fields). -/
structure ResourceMgrScopeConfig where
  Dynamic : Bool
  Memory : Int
  MemoryFraction : Rat
  MinMemory : Int
  MaxMemory : Int
  Streams : Int
  StreamsInbound : Int
  StreamsOutbound : Int
  Conns : Int
  ConnsInbound : Int
  ConnsOutbound : Int
  FD : Int
deriving DecidableEq

/-- The zero value of `config.ResourceMgrScopeConfig` (Go's
`var result config.ResourceMgrScopeConfig`). -/
def zeroScopeConfig : ResourceMgrScopeConfig :=
  ⟨false, 0, 0, 0, 0, 0, 0, 0, 0, 0, 0, 0⟩

/-- A scope as the view callbacks of `rcmgr.go` observe it: its `Stat()`
snapshot, and `some` limit exactly when the scope implements
`rcmgr.ResourceScopeLimiter` (the null manager's scopes do not). -/
structure ManagedScope where
  stat : ScopeStat
  limiter : Option Limit
deriving DecidableEq

/-- `rcmgr.ResourceManagerStat`: the aggregate snapshot returned by
`ResourceManagerState.Stat()`, with the service/protocol/peer categories as
(association-list) maps. -/
structure ResourceManagerStat where
  System : ScopeStat
  Transient : ScopeStat
  Services : List (GoStr × ScopeStat)
  Protocols : List (ProtocolId × ScopeStat)
  Peers : List (PeerId × ScopeStat)

/-- `network.ResourceManager` as `rcmgr.go` uses it: `state` is `some`
aggregate snapshot exactly when the manager implements
`rcmgr.ResourceManagerState` (the null manager does not), and each view
operation (`ViewSystem`, `ViewTransient`, `ViewService`, `ViewProtocol`,
`ViewPeer`) runs its callback on the corresponding scope. -/
structure Manager where
  state : Option ResourceManagerStat
  systemScope : ManagedScope
  transientScope : ManagedScope
  serviceScope : GoStr → ManagedScope
  protocolScope : ProtocolId → ManagedScope
  peerScope : PeerId → ManagedScope

/-- A null scope: `Stat()` returns the zero snapshot and the
`rcmgr.ResourceScopeLimiter` type assertion fails. -/
def nullScope : ManagedScope := { stat := zeroScopeStat, limiter := none }

/-- `network.NullResourceManager` of go-libp2p-core, the manager installed
when the resource manager is disabled: it does not implement
`rcmgr.ResourceManagerState`, and every view runs its callback on a null
scope (which is why the limiter type assertions in `rcmgr.go` are commented
`// NullResourceManager`). -/
def NullResourceManager : Manager :=
  { state := none
    systemScope := nullScope
    transientScope := nullScope
    serviceScope := fun _ => nullScope
    protocolScope := fun _ => nullScope
    peerScope := fun _ => nullScope }

/-- The errors `rcmgr.go` returns: `NoResourceMgrError`, the two
`fmt.Errorf` parse errors (each naming the offending string), and the
unknown-limit-type error of `NetLimit`'s type switch. -/
inductive NetError where
  | noResourceMgr
  | invalidScope (scope : GoStr)
  | invalidPeerID (p : GoStr)
  | unknownLimitType
deriving DecidableEq

/-- `NetStatOut` of `rcmgr.go`: every field is `json:",omitempty"` and its
Go zero value is nil; `none` embeds nil. -/
structure NetStatOut where
  System : Option ScopeStat := none
  Transient : Option ScopeStat := none
  Services : Option (List (GoStr × ScopeStat)) := none
  Protocols : Option (List (GoStr × ScopeStat)) := none
  Peers : Option (List (GoStr × ScopeStat)) := none
deriving DecidableEq

/-- `NetStat` of `rcmgr.go` (lines 122-209). Go's `(result, err)` pair is
returned as a product with `Option NetError` (`none` = nil error);
`peerDecode` stands for the external `peer.Decode`. -/
def NetStat (peerDecode : GoStr → Option PeerId) (mgr : Manager) (scope : GoStr) :
    NetStatOut × Option NetError :=
  if scope = allScope then
    match mgr.state with
    | none => ({}, some NetError.noResourceMgr)
    | some stat =>
        ({ System := some stat.System
           Transient := some stat.Transient
           Services := if stat.Services.length > 0 then some stat.Services else none
           Protocols :=
             if stat.Protocols.length > 0 then
               some (stat.Protocols.map (fun ps => (ps.1.protoId, ps.2)))
             else none
           Peers :=
             if stat.Peers.length > 0 then
               some (stat.Peers.map (fun ps => (ps.1.pretty, ps.2)))
             else none }, none)
  else if scope = ResourceMgrSystemScope then
    ({ System := some mgr.systemScope.stat }, none)
  else if scope = ResourceMgrTransientScope then
    ({ Transient := some mgr.transientScope.stat }, none)
  else if ResourceMgrServiceScopePrefix <+: scope then
    let svc := scope.drop 4
    ({ Services := some [(svc, (mgr.serviceScope svc).stat)] }, none)
  else if ResourceMgrProtocolScopePrefix <+: scope then
    let proto := scope.drop 6
    ({ Protocols := some [(proto, (mgr.protocolScope ⟨proto⟩).stat)] }, none)
  else if ResourceMgrPeerScopePrefix <+: scope then
    let p := scope.drop 5
    match peerDecode p with
    | none => ({}, some (NetError.invalidPeerID p))
    | some pid => ({ Peers := some [(p, (mgr.peerScope pid).stat)] }, none)
  else
    ({}, some (NetError.invalidScope scope))

/-- The `getLimit` closure of `NetLimit` (lines 213-250): the
`rcmgr.ResourceScopeLimiter` assertion, then the type switch over the limit
variants, filling the captured zero-initialized `result`. -/
def getLimit (s : ManagedScope) : ResourceMgrScopeConfig × Option NetError :=
  match s.limiter with
  | none => (zeroScopeConfig, some NetError.noResourceMgr)
  | some (Limit.staticLimit memory base) =>
      ({ zeroScopeConfig with
          Dynamic := false
          Memory := memory
          Streams := base.Streams
          StreamsInbound := base.StreamsInbound
          StreamsOutbound := base.StreamsOutbound
          Conns := base.Conns
          ConnsInbound := base.ConnsInbound
          ConnsOutbound := base.ConnsOutbound
          FD := base.FD }, none)
  | some (Limit.dynamicLimit ml base) =>
      ({ zeroScopeConfig with
          Dynamic := true
          MemoryFraction := ml.MemoryFraction
          MinMemory := ml.MinMemory
          MaxMemory := ml.MaxMemory
          Streams := base.Streams
          StreamsInbound := base.StreamsInbound
          StreamsOutbound := base.StreamsOutbound
          Conns := base.Conns
          ConnsInbound := base.ConnsInbound
          ConnsOutbound := base.ConnsOutbound
          FD := base.FD }, none)
  | some Limit.unknownLimit => (zeroScopeConfig, some NetError.unknownLimitType)

/-- `NetLimit` of `rcmgr.go` (lines 211-293): resolve the scope address and
run `getLimit` on the resolved scope. -/
def NetLimit (peerDecode : GoStr → Option PeerId) (mgr : Manager) (scope : GoStr) :
    ResourceMgrScopeConfig × Option NetError :=
  if scope = ResourceMgrSystemScope then
    getLimit mgr.systemScope
  else if scope = ResourceMgrTransientScope then
    getLimit mgr.transientScope
  else if ResourceMgrServiceScopePrefix <+: scope then
    getLimit (mgr.serviceScope (scope.drop 4))
  else if ResourceMgrProtocolScopePrefix <+: scope then
    getLimit (mgr.protocolScope ⟨scope.drop 6⟩)
  else if ResourceMgrPeerScopePrefix <+: scope then
    let p := scope.drop 5
    match peerDecode p with
    | none => (zeroScopeConfig, some (NetError.invalidPeerID p))
    | some pid => getLimit (mgr.peerScope pid)
  else
    (zeroScopeConfig, some (NetError.invalidScope scope))

/-- The `newLimit` construction inside `NetSetLimit`'s `setLimit` closure
(lines 302-333): a `*rcmgr.DynamicLimit` when `limit.Dynamic`, else a
`*rcmgr.StaticLimit`. -/
def limitFromConfig (limit : ResourceMgrScopeConfig) : Limit :=
  if limit.Dynamic then
    Limit.dynamicLimit
      { MemoryFraction := limit.MemoryFraction
        MinMemory := limit.MinMemory
        MaxMemory := limit.MaxMemory }
      { Streams := limit.Streams
        StreamsInbound := limit.StreamsInbound
        StreamsOutbound := limit.StreamsOutbound
        Conns := limit.Conns
        ConnsInbound := limit.ConnsInbound
        ConnsOutbound := limit.ConnsOutbound
        FD := limit.FD }
  else
    Limit.staticLimit limit.Memory
      { Streams := limit.Streams
        StreamsInbound := limit.StreamsInbound
        StreamsOutbound := limit.StreamsOutbound
        Conns := limit.Conns
        ConnsInbound := limit.ConnsInbound
        ConnsOutbound := limit.ConnsOutbound
        FD := limit.FD }

/-- The `setLimit` closure of `NetSetLimit` (lines 296-337): the
`rcmgr.ResourceScopeLimiter` assertion, then `limiter.SetLimit(newLimit)`,
returned here as the scope's post-state. -/
def setLimitOnScope (limit : ResourceMgrScopeConfig) (s : ManagedScope) :
    ManagedScope × Option NetError :=
  match s.limiter with
  | none => (s, some NetError.noResourceMgr)
  | some _ => ({ s with limiter := some (limitFromConfig limit) }, none)

/-- `NetSetLimit` of `rcmgr.go` (lines 295-380): resolve the scope address
and run `setLimit` on the resolved scope. Go mutates the scope in place and
returns only the error; the embedding returns the manager's post-state
alongside the error. -/
def NetSetLimit (peerDecode : GoStr → Option PeerId) (mgr : Manager) (scope : GoStr)
    (limit : ResourceMgrScopeConfig) : Manager × Option NetError :=
  if scope = ResourceMgrSystemScope then
    let r := setLimitOnScope limit mgr.systemScope
    ({ mgr with systemScope := r.1 }, r.2)
  else if scope = ResourceMgrTransientScope then
    let r := setLimitOnScope limit mgr.transientScope
    ({ mgr with transientScope := r.1 }, r.2)
  else if ResourceMgrServiceScopePrefix <+: scope then
    let svc := scope.drop 4
    let r := setLimitOnScope limit (mgr.serviceScope svc)
    ({ mgr with serviceScope := fun k => if k = svc then r.1 else mgr.serviceScope k },
      r.2)
  else if ResourceMgrProtocolScopePrefix <+: scope then
    let proto : ProtocolId := ⟨scope.drop 6⟩
    let r := setLimitOnScope limit (mgr.protocolScope proto)
    ({ mgr with protocolScope := fun k => if k = proto then r.1 else mgr.protocolScope k },
      r.2)
  else if ResourceMgrPeerScopePrefix <+: scope then
    let p := scope.drop 5
    match peerDecode p with
    | none => (mgr, some (NetError.invalidPeerID p))
    | some pid =>
        let r := setLimitOnScope limit (mgr.peerScope pid)
        ({ mgr with peerScope := fun k => if k = pid then r.1 else mgr.peerScope k },
          r.2)
  else
    (mgr, some (NetError.invalidScope scope))

/-- Modelled from the spec: `config.Flag` (the type of
`Swarm.ResourceMgr.Enabled`, not under `src/`), a ternary false/default/true
value; per the spec the decision "defers to cfg.Enabled, which defaults to
false when unset", so `withDefault d` returns `d` on the default state and
the forced boolean otherwise. -/
inductive Flag where
  | flagFalse
  | flagDefault
  | flagTrue
deriving DecidableEq

/-- `Flag.WithDefault` of the `config` package, modelled from the spec (see
`Flag`). -/
def Flag.withDefault : Flag → Bool → Bool
  | Flag.flagFalse, _ => false
  | Flag.flagDefault, d => d
  | Flag.flagTrue, _ => true

/-- The enabled/disabled decision of the `ResourceManager` constructor
(lines 36-45): `enabled := cfg.Enabled.WithDefault(false)`, then the switch
on `os.Getenv("LIBP2P_RCMGR")` (which returns `""` when the variable is
unset). -/
def resourceManagerEnabled (env : GoStr) (cfgEnabled : Flag) : Bool :=
  let enabled := cfgEnabled.withDefault false
  if env = "0".toList ∨ env = "false".toList then false
  else if env = "1".toList ∨ env = "true".toList then true
  else enabled

/-- The five single-scope address forms of §3, for quantifying theorems over
valid addresses; `all` is kept separate since only `NetStat` accepts it. -/
inductive ScopeAddress where
  | system
  | transient
  | svc (name : GoStr)
  | proto (protoId : GoStr)
  | peer (p : GoStr)
deriving DecidableEq

/-- The address string of a `ScopeAddress`. -/
def ScopeAddress.render : ScopeAddress → GoStr
  | ScopeAddress.system => ResourceMgrSystemScope
  | ScopeAddress.transient => ResourceMgrTransientScope
  | ScopeAddress.svc n => ResourceMgrServiceScopePrefix ++ n
  | ScopeAddress.proto i => ResourceMgrProtocolScopePrefix ++ i
  | ScopeAddress.peer p => ResourceMgrPeerScopePrefix ++ p

/-- Whether an address is fully valid under a given peer decoder: a `peer:`
address must carry a decodable peer identifier, the other forms always are. -/
def ScopeAddress.decodesOk (peerDecode : GoStr → Option PeerId) : ScopeAddress → Bool
  | ScopeAddress.peer p => (peerDecode p).isSome
  | _ => true

/-- The scope a valid address resolves to (the scope the view operations of
`rcmgr.go` hand to their callbacks); for a `peer:` address whose identifier
does not decode it is unused and defaults to the null scope. -/
def Manager.scopeAt (mgr : Manager) (peerDecode : GoStr → Option PeerId) :
    ScopeAddress → ManagedScope
  | ScopeAddress.system => mgr.systemScope
  | ScopeAddress.transient => mgr.transientScope
  | ScopeAddress.svc n => mgr.serviceScope n
  | ScopeAddress.proto i => mgr.protocolScope ⟨i⟩
  | ScopeAddress.peer p =>
      match peerDecode p with
      | some pid => mgr.peerScope pid
      | none => nullScope

/-- The output a single-scope `NetStat` call is specified to produce: exactly
the field of the address's category is set (a single-entry map keyed by the
address suffix for the service/protocol/peer forms), every other field stays
nil. Stated from the claim; the theorems compare `NetStat` against it. -/
def netStatSingleOut (peerDecode : GoStr → Option PeerId) (mgr : Manager) :
    ScopeAddress → NetStatOut
  | ScopeAddress.system => { System := some mgr.systemScope.stat }
  | ScopeAddress.transient => { Transient := some mgr.transientScope.stat }
  | ScopeAddress.svc n => { Services := some [(n, (mgr.serviceScope n).stat)] }
  | ScopeAddress.proto i => { Protocols := some [(i, (mgr.protocolScope ⟨i⟩).stat)] }
  | ScopeAddress.peer p =>
      match peerDecode p with
      | some pid => { Peers := some [(p, (mgr.peerScope pid).stat)] }
      | none => {}

/-- Equality of two scope configurations as the round-trip claim states it:
on the `Dynamic` discriminator, on the seven `BaseLimit` fields, and on the
fields of the active variant (`Memory` for the static variant;
`MemoryFraction`, `MinMemory`, `MaxMemory` for the dynamic one). -/
def variantFieldsEq (L R : ResourceMgrScopeConfig) : Prop :=
  R.Dynamic = L.Dynamic ∧
  R.Streams = L.Streams ∧
  R.StreamsInbound = L.StreamsInbound ∧
  R.StreamsOutbound = L.StreamsOutbound ∧
  R.Conns = L.Conns ∧
  R.ConnsInbound = L.ConnsInbound ∧
  R.ConnsOutbound = L.ConnsOutbound ∧
  R.FD = L.FD ∧
  (L.Dynamic = false → R.Memory = L.Memory) ∧
  (L.Dynamic = true →
    R.MemoryFraction = L.MemoryFraction ∧ R.MinMemory = L.MinMemory ∧
    R.MaxMemory = L.MaxMemory)

/-- A concrete usage snapshot, for the witnesses. -/
def sampleStat : ScopeStat := ⟨1, 2, 3, 4, 5, 6⟩

/-- A concrete scope of an enabled manager (it carries a limiter), for the
witnesses. -/
def sampleScope : ManagedScope :=
  { stat := sampleStat, limiter := some (Limit.staticLimit 42 ⟨1, 2, 3, 4, 5, 6, 7⟩) }

/-- A concrete enabled manager, for the witnesses. -/
def sampleManager : Manager :=
  { state := some ⟨sampleStat, sampleStat, [], [], []⟩
    systemScope := sampleScope
    transientScope := sampleScope
    serviceScope := fun _ => sampleScope
    protocolScope := fun _ => sampleScope
    peerScope := fun _ => sampleScope }

/-- A peer decoder that accepts every identifier, for the witnesses. -/
def sampleDecode : GoStr → Option PeerId := fun s => some ⟨s⟩

/-- A peer decoder that rejects every identifier, for the witnesses. -/
def noneDecode : GoStr → Option PeerId := fun _ => none

/-- A concrete dynamic-variant configuration, for the witnesses. -/
def sampleDynamicConfig : ResourceMgrScopeConfig :=
  ⟨true, 0, (1 : Rat) / 2, 100, 2000, 8, 4, 4, 6, 3, 3, 9⟩

/-- A concrete static-variant configuration, for the witnesses. -/
def sampleStaticConfig : ResourceMgrScopeConfig :=
  ⟨false, 4096, 0, 0, 0, 8, 4, 4, 6, 3, 3, 9⟩

end Rcmgr

namespace Rcmgr

/-- Character expansion of the `system` scope constant. -/
theorem sysChars : ResourceMgrSystemScope = ['s', 'y', 's', 't', 'e', 'm'] := rfl

/-- Character expansion of the `transient` scope constant. -/
theorem transChars :
    ResourceMgrTransientScope = ['t', 'r', 'a', 'n', 's', 'i', 'e', 'n', 't'] := rfl

/-- Character expansion of the `svc:` prefix constant. -/
theorem svcChars : ResourceMgrServiceScopePrefix = ['s', 'v', 'c', ':'] := rfl

/-- Character expansion of the `proto:` prefix constant. -/
theorem protoChars : ResourceMgrProtocolScopePrefix = ['p', 'r', 'o', 't', 'o', ':'] := rfl

/-- Character expansion of the `peer:` prefix constant. -/
theorem peerChars : ResourceMgrPeerScopePrefix = ['p', 'e', 'e', 'r', ':'] := rfl

/-- Character expansion of the `all` scope constant. -/
theorem allChars : allScope = ['a', 'l', 'l'] := rfl

/-- A valid single-scope address resolves, in `NetLimit`, to `getLimit` on
the scope the address denotes. -/
theorem netLimit_scopeAt (d : GoStr → Option PeerId) (m : Manager) (addr : ScopeAddress)
    (h : addr.decodesOk d = true) :
    NetLimit d m addr.render = getLimit (m.scopeAt d addr) := by
  cases addr with
  | system => simp [NetLimit, ScopeAddress.render, Manager.scopeAt]
  | transient =>
      simp [NetLimit, ScopeAddress.render, Manager.scopeAt, sysChars, transChars]
  | svc n =>
      simp [NetLimit, ScopeAddress.render, Manager.scopeAt, sysChars, transChars,
        svcChars, protoChars, peerChars]
  | proto i =>
      simp [NetLimit, ScopeAddress.render, Manager.scopeAt, sysChars, transChars,
        svcChars, protoChars, peerChars]
  | peer p =>
      obtain ⟨pid, hpid⟩ := Option.isSome_iff_exists.mp h
      simp [NetLimit, ScopeAddress.render, Manager.scopeAt, sysChars, transChars,
        svcChars, protoChars, peerChars, hpid]

/-- A valid single-scope address resolves, in `NetStat`, to the single-entry
output of its category. -/
theorem netStat_single (d : GoStr → Option PeerId) (m : Manager) (addr : ScopeAddress)
    (h : addr.decodesOk d = true) :
    NetStat d m addr.render = (netStatSingleOut d m addr, none) := by
  cases addr with
  | system =>
      simp [NetStat, ScopeAddress.render, netStatSingleOut, sysChars, transChars, allChars]
  | transient =>
      simp [NetStat, ScopeAddress.render, netStatSingleOut, sysChars, transChars, allChars]
  | svc n =>
      simp [NetStat, ScopeAddress.render, netStatSingleOut, sysChars, transChars,
        allChars, svcChars, protoChars, peerChars]
  | proto i =>
      simp [NetStat, ScopeAddress.render, netStatSingleOut, sysChars, transChars,
        allChars, svcChars, protoChars, peerChars]
  | peer p =>
      obtain ⟨pid, hpid⟩ := Option.isSome_iff_exists.mp h
      simp [NetStat, ScopeAddress.render, netStatSingleOut, sysChars, transChars,
        allChars, svcChars, protoChars, peerChars, hpid]

/-- A valid single-scope address resolves, in `NetSetLimit`, to `setLimit` on
the scope the address denotes: the returned error is the scope-level error,
and the address resolves in the post-state to the scope-level post-state. -/
theorem netSetLimit_scopeAt (d : GoStr → Option PeerId) (m : Manager)
    (addr : ScopeAddress) (L : ResourceMgrScopeConfig)
    (h : addr.decodesOk d = true) :
    (NetSetLimit d m addr.render L).2 = (setLimitOnScope L (m.scopeAt d addr)).2 ∧
    (NetSetLimit d m addr.render L).1.scopeAt d addr =
      (setLimitOnScope L (m.scopeAt d addr)).1 := by
  cases addr with
  | system => simp [NetSetLimit, ScopeAddress.render, Manager.scopeAt]
  | transient =>
      simp [NetSetLimit, ScopeAddress.render, Manager.scopeAt, sysChars, transChars]
  | svc n =>
      simp [NetSetLimit, ScopeAddress.render, Manager.scopeAt, sysChars, transChars,
        svcChars, protoChars, peerChars]
  | proto i =>
      simp [NetSetLimit, ScopeAddress.render, Manager.scopeAt, sysChars, transChars,
        svcChars, protoChars, peerChars]
  | peer p =>
      obtain ⟨pid, hpid⟩ := Option.isSome_iff_exists.mp h
      simp [NetSetLimit, ScopeAddress.render, Manager.scopeAt, sysChars, transChars,
        svcChars, protoChars, peerChars, hpid]

/-- Every address of the null manager resolves to the null scope. -/
theorem scopeAt_null (d : GoStr → Option PeerId) (addr : ScopeAddress) :
    NullResourceManager.scopeAt d addr = nullScope := by
  cases addr with
  | peer p => cases hp : d p <;> simp [Manager.scopeAt, NullResourceManager, hp]
  | _ => simp [Manager.scopeAt, NullResourceManager]

end Rcmgr

namespace Rcmgr

/-- Scope-level set-then-get: on a scope that carries a limiter, the
`setLimit` closure succeeds and a following `getLimit` reads back the
written configuration's discriminator, base fields and variant fields. -/
theorem setThenGet (L : ResourceMgrScopeConfig) (s : ManagedScope)
    (h : s.limiter.isSome = true) :
    (setLimitOnScope L s).2 = none ∧
    (getLimit (setLimitOnScope L s).1).2 = none ∧
    variantFieldsEq L (getLimit (setLimitOnScope L s).1).1 := by
  obtain ⟨l, hl⟩ := Option.isSome_iff_exists.mp h
  cases hDyn : L.Dynamic <;>
    simp [setLimitOnScope, hl, getLimit, limitFromConfig, hDyn, variantFieldsEq]

/-- C1: for every enabled manager (the addressed scope carries a limiter)
and every valid scope address (system, transient, `svc:`, `proto:`, or
`peer:` with a decodable identifier), `NetSetLimit` with configuration `L`
followed by `NetLimit` on the same address succeeds, and the returned
configuration equals `L`: same `Dynamic` discriminator, same seven
`BaseLimit` fields, and same variant fields (`Memory` when `L.Dynamic` is
false; `MemoryFraction`, `MinMemory`, `MaxMemory` when it is true). -/
theorem netSetLimit_netLimit_roundTrip (d : GoStr → Option PeerId) (m : Manager)
    (addr : ScopeAddress) (L : ResourceMgrScopeConfig)
    (hdec : addr.decodesOk d = true)
    (hlim : (m.scopeAt d addr).limiter.isSome = true) :
    (NetSetLimit d m addr.render L).2 = none ∧
    (NetLimit d (NetSetLimit d m addr.render L).1 addr.render).2 = none ∧
    variantFieldsEq L (NetLimit d (NetSetLimit d m addr.render L).1 addr.render).1 := by
  obtain ⟨herr, hres⟩ := netSetLimit_scopeAt d m addr L hdec
  obtain ⟨h1, h2, h3⟩ := setThenGet L (m.scopeAt d addr) hlim
  rw [netLimit_scopeAt d _ addr hdec, hres]
  exact ⟨herr.trans h1, h2, h3⟩

/-- C1 witness: the round trip at the concrete address `svc:x` of a concrete
enabled manager, with a concrete dynamic-variant configuration. -/
theorem netSetLimit_netLimit_roundTrip_witness :
    (ScopeAddress.svc ['x']).decodesOk sampleDecode = true ∧
    (sampleManager.scopeAt sampleDecode (ScopeAddress.svc ['x'])).limiter.isSome = true ∧
    ((NetSetLimit sampleDecode sampleManager (ScopeAddress.svc ['x']).render
        sampleDynamicConfig).2 = none ∧
     (NetLimit sampleDecode (NetSetLimit sampleDecode sampleManager
        (ScopeAddress.svc ['x']).render sampleDynamicConfig).1
        (ScopeAddress.svc ['x']).render).2 = none ∧
     variantFieldsEq sampleDynamicConfig
       (NetLimit sampleDecode (NetSetLimit sampleDecode sampleManager
          (ScopeAddress.svc ['x']).render sampleDynamicConfig).1
          (ScopeAddress.svc ['x']).render).1) :=
  ⟨by decide, by decide,
    netSetLimit_netLimit_roundTrip sampleDecode sampleManager (ScopeAddress.svc ['x'])
      sampleDynamicConfig (by decide) (by decide)⟩

/-- C2 counterexample: with the manager disabled (null manager), `NetStat`
on the single-scope address `system` does NOT fail with `NoResourceMgrError`
— it succeeds (nil error) with the null scope's zero snapshot, because the
single-scope branches of `NetStat` call `Stat()` without any limiter type
assertion. -/
theorem netStat_null_single_no_error :
    NetStat noneDecode NullResourceManager ResourceMgrSystemScope =
      ({ System := some zeroScopeStat }, none) := by decide

/-- C2 (amended): with the manager disabled, `NetStat` with scope `all` and
`NetLimit`/`NetSetLimit` with any of the five single-scope addresses fail
with `NoResourceMgrError`; `NetStat` on a single-scope address instead
succeeds with the null scope's zero snapshot, and `NetLimit`/`NetSetLimit`
with scope `all` fail with the invalid-scope error, not
`NoResourceMgrError`. -/
theorem null_manager_calls (d : GoStr → Option PeerId) (addr : ScopeAddress)
    (L : ResourceMgrScopeConfig) (h : addr.decodesOk d = true) :
    (NetStat d NullResourceManager allScope).2 = some NetError.noResourceMgr ∧
    (NetLimit d NullResourceManager addr.render).2 = some NetError.noResourceMgr ∧
    (NetSetLimit d NullResourceManager addr.render L).2 = some NetError.noResourceMgr ∧
    (NetStat d NullResourceManager addr.render).2 = none ∧
    (NetLimit d NullResourceManager allScope).2 = some (NetError.invalidScope allScope) ∧
    (NetSetLimit d NullResourceManager allScope L).2 =
      some (NetError.invalidScope allScope) := by
  refine ⟨?_, ?_, ?_, ?_, ?_, ?_⟩
  · simp [NetStat, NullResourceManager]
  · rw [netLimit_scopeAt d _ addr h, scopeAt_null]
    simp [getLimit, nullScope]
  · obtain ⟨herr, _⟩ := netSetLimit_scopeAt d NullResourceManager addr L h
    rw [herr, scopeAt_null]
    simp [setLimitOnScope, nullScope]
  · rw [netStat_single d _ addr h]
  · simp [NetLimit, allChars, sysChars, transChars, svcChars, protoChars, peerChars]
  · simp [NetSetLimit, allChars, sysChars, transChars, svcChars, protoChars, peerChars]

/-- C2 witness: the amended statement at the concrete address `system`. -/
theorem null_manager_calls_witness :
    (ScopeAddress.system.decodesOk sampleDecode = true) ∧
    ((NetStat sampleDecode NullResourceManager allScope).2 =
        some NetError.noResourceMgr ∧
     (NetLimit sampleDecode NullResourceManager ScopeAddress.system.render).2 =
        some NetError.noResourceMgr ∧
     (NetSetLimit sampleDecode NullResourceManager ScopeAddress.system.render
        sampleStaticConfig).2 = some NetError.noResourceMgr ∧
     (NetStat sampleDecode NullResourceManager ScopeAddress.system.render).2 = none ∧
     (NetLimit sampleDecode NullResourceManager allScope).2 =
        some (NetError.invalidScope allScope) ∧
     (NetSetLimit sampleDecode NullResourceManager allScope sampleStaticConfig).2 =
        some (NetError.invalidScope allScope)) :=
  ⟨rfl, null_manager_calls sampleDecode ScopeAddress.system sampleStaticConfig rfl⟩

/-- C3: with the manager disabled (the null manager does not implement
`ResourceManagerState`), `NetStat` with scope `all` returns
`NoResourceMgrError` together with the empty `NetStatOut` (every field
nil). -/
theorem netStat_all_null_manager (d : GoStr → Option PeerId) :
    NetStat d NullResourceManager allScope = ({}, some NetError.noResourceMgr) := by
  simp [NetStat, NullResourceManager]

/-- C4: the enabled/disabled decision is a three-state function of the
`LIBP2P_RCMGR` environment value: `0`/`false` force-disable, `1`/`true`
force-enable, and every other value (including the empty string returned
for an unset variable) defers to the configuration flag, whose default is
false. -/
theorem resourceManagerEnabled_three_state (env : GoStr) (flag : Flag) :
    ((env = "0".toList ∨ env = "false".toList) →
      resourceManagerEnabled env flag = false) ∧
    ((env = "1".toList ∨ env = "true".toList) →
      resourceManagerEnabled env flag = true) ∧
    (¬(env = "0".toList ∨ env = "false".toList) →
      ¬(env = "1".toList ∨ env = "true".toList) →
      resourceManagerEnabled env flag = flag.withDefault false) ∧
    Flag.flagDefault.withDefault false = false := by
  refine ⟨?_, ?_, ?_, rfl⟩
  · rintro (h | h) <;> subst h <;> simp [resourceManagerEnabled]
  · rintro (h | h) <;> subst h <;> simp [resourceManagerEnabled]
  · intro h0 h1
    simp only [resourceManagerEnabled, if_neg h0, if_neg h1]

/-- C5: for an enabled manager, `NetStat` with scope `all` always carries
the System and Transient snapshots, and carries the Services, Protocols and
Peers maps exactly when the corresponding category of the aggregate stat is
non-empty; an empty category is omitted (nil), not returned as an empty
collection. -/
theorem netStat_all_presence (d : GoStr → Option PeerId) (m : Manager)
    (st : ResourceManagerStat) (h : m.state = some st) :
    (NetStat d m allScope).2 = none ∧
    (NetStat d m allScope).1.System = some st.System ∧
    (NetStat d m allScope).1.Transient = some st.Transient ∧
    ((NetStat d m allScope).1.Services = none ↔ st.Services = []) ∧
    ((NetStat d m allScope).1.Protocols = none ↔ st.Protocols = []) ∧
    ((NetStat d m allScope).1.Peers = none ↔ st.Peers = []) ∧
    (st.Services ≠ [] → (NetStat d m allScope).1.Services = some st.Services) ∧
    (st.Protocols ≠ [] → (NetStat d m allScope).1.Protocols =
      some (st.Protocols.map (fun ps => (ps.1.protoId, ps.2)))) ∧
    (st.Peers ≠ [] → (NetStat d m allScope).1.Peers =
      some (st.Peers.map (fun ps => (ps.1.pretty, ps.2)))) := by
  cases hs : st.Services <;> cases hp : st.Protocols <;> cases hq : st.Peers <;>
    simp [NetStat, h, hs, hp, hq]

/-- C5 witness: an enabled manager whose aggregate stat has empty
service/protocol/peer categories; the maps are omitted. -/
theorem netStat_all_presence_witness :
    (sampleManager.state = some ⟨sampleStat, sampleStat, [], [], []⟩) ∧
    ((NetStat sampleDecode sampleManager allScope).2 = none ∧
     (NetStat sampleDecode sampleManager allScope).1.System =
        some (⟨sampleStat, sampleStat, [], [], []⟩ : ResourceManagerStat).System ∧
     (NetStat sampleDecode sampleManager allScope).1.Transient =
        some (⟨sampleStat, sampleStat, [], [], []⟩ : ResourceManagerStat).Transient ∧
     ((NetStat sampleDecode sampleManager allScope).1.Services = none ↔
        (⟨sampleStat, sampleStat, [], [], []⟩ : ResourceManagerStat).Services = []) ∧
     ((NetStat sampleDecode sampleManager allScope).1.Protocols = none ↔
        (⟨sampleStat, sampleStat, [], [], []⟩ : ResourceManagerStat).Protocols = []) ∧
     ((NetStat sampleDecode sampleManager allScope).1.Peers = none ↔
        (⟨sampleStat, sampleStat, [], [], []⟩ : ResourceManagerStat).Peers = []) ∧
     ((⟨sampleStat, sampleStat, [], [], []⟩ : ResourceManagerStat).Services ≠ [] →
        (NetStat sampleDecode sampleManager allScope).1.Services =
          some (⟨sampleStat, sampleStat, [], [], []⟩ : ResourceManagerStat).Services) ∧
     ((⟨sampleStat, sampleStat, [], [], []⟩ : ResourceManagerStat).Protocols ≠ [] →
        (NetStat sampleDecode sampleManager allScope).1.Protocols =
          some ((⟨sampleStat, sampleStat, [], [], []⟩ : ResourceManagerStat).Protocols.map
            (fun ps => (ps.1.protoId, ps.2)))) ∧
     ((⟨sampleStat, sampleStat, [], [], []⟩ : ResourceManagerStat).Peers ≠ [] →
        (NetStat sampleDecode sampleManager allScope).1.Peers =
          some ((⟨sampleStat, sampleStat, [], [], []⟩ : ResourceManagerStat).Peers.map
            (fun ps => (ps.1.pretty, ps.2))))) :=
  ⟨rfl, netStat_all_presence sampleDecode sampleManager
    ⟨sampleStat, sampleStat, [], [], []⟩ rfl⟩

/-- C6: the recognized limit-variant set is total for `NetLimit`: when the
addressed scope's limit is the static variant, `NetLimit` succeeds with
`Dynamic = false`; when it is the dynamic variant, it succeeds with
`Dynamic = true`; in both cases no error — in particular the
unknown-limit-type branch — is returned. -/
theorem netLimit_variant_total (d : GoStr → Option PeerId) (m : Manager)
    (addr : ScopeAddress) (mem : Int) (b : BaseLimit) (ml : MemoryLimit)
    (h : addr.decodesOk d = true) :
    ((m.scopeAt d addr).limiter = some (Limit.staticLimit mem b) →
      (NetLimit d m addr.render).2 = none ∧
      (NetLimit d m addr.render).1.Dynamic = false) ∧
    ((m.scopeAt d addr).limiter = some (Limit.dynamicLimit ml b) →
      (NetLimit d m addr.render).2 = none ∧
      (NetLimit d m addr.render).1.Dynamic = true) := by
  rw [netLimit_scopeAt d m addr h]
  constructor <;> intro hl <;> simp [getLimit, hl]

/-- C6 witness: the variant totality at the concrete address `system` of a
concrete manager whose system scope carries a static limit. -/
theorem netLimit_variant_total_witness :
    (ScopeAddress.system.decodesOk sampleDecode = true) ∧
    (((sampleManager.scopeAt sampleDecode ScopeAddress.system).limiter =
        some (Limit.staticLimit 42 ⟨1, 2, 3, 4, 5, 6, 7⟩) →
      (NetLimit sampleDecode sampleManager ScopeAddress.system.render).2 = none ∧
      (NetLimit sampleDecode sampleManager ScopeAddress.system.render).1.Dynamic = false) ∧
     ((sampleManager.scopeAt sampleDecode ScopeAddress.system).limiter =
        some (Limit.dynamicLimit ⟨0, 0, 0⟩ ⟨1, 2, 3, 4, 5, 6, 7⟩) →
      (NetLimit sampleDecode sampleManager ScopeAddress.system.render).2 = none ∧
      (NetLimit sampleDecode sampleManager ScopeAddress.system.render).1.Dynamic = true)) :=
  ⟨rfl, netLimit_variant_total sampleDecode sampleManager ScopeAddress.system 42
    ⟨1, 2, 3, 4, 5, 6, 7⟩ ⟨0, 0, 0⟩ rfl⟩

/-- C7: a scope string matching none of the recognized forms (not `all`, not
`system`, not `transient`, and carrying none of the `svc:`/`proto:`/`peer:`
prefixes) makes `NetStat`, `NetLimit` and `NetSetLimit` return the
invalid-scope error naming the offending string, with a zero-valued result
and (for `NetSetLimit`) an unchanged manager. -/
theorem invalid_scope_error (d : GoStr → Option PeerId) (m : Manager) (scope : GoStr)
    (L : ResourceMgrScopeConfig)
    (h1 : scope ≠ allScope) (h2 : scope ≠ ResourceMgrSystemScope)
    (h3 : scope ≠ ResourceMgrTransientScope)
    (h4 : ¬ ResourceMgrServiceScopePrefix <+: scope)
    (h5 : ¬ ResourceMgrProtocolScopePrefix <+: scope)
    (h6 : ¬ ResourceMgrPeerScopePrefix <+: scope) :
    NetStat d m scope = ({}, some (NetError.invalidScope scope)) ∧
    NetLimit d m scope = (zeroScopeConfig, some (NetError.invalidScope scope)) ∧
    NetSetLimit d m scope L = (m, some (NetError.invalidScope scope)) := by
  refine ⟨?_, ?_, ?_⟩ <;> simp [NetStat, NetLimit, NetSetLimit, h1, h2, h3, h4, h5, h6]

/-- C7 witness: the unrecognized scope string `z`. -/
theorem invalid_scope_error_witness :
    (['z'] : GoStr) ≠ allScope ∧ (['z'] : GoStr) ≠ ResourceMgrSystemScope ∧
    (['z'] : GoStr) ≠ ResourceMgrTransientScope ∧
    ¬ ResourceMgrServiceScopePrefix <+: (['z'] : GoStr) ∧
    ¬ ResourceMgrProtocolScopePrefix <+: (['z'] : GoStr) ∧
    ¬ ResourceMgrPeerScopePrefix <+: (['z'] : GoStr) ∧
    (NetStat sampleDecode sampleManager ['z'] =
       ({}, some (NetError.invalidScope ['z'])) ∧
     NetLimit sampleDecode sampleManager ['z'] =
       (zeroScopeConfig, some (NetError.invalidScope ['z'])) ∧
     NetSetLimit sampleDecode sampleManager ['z'] sampleStaticConfig =
       (sampleManager, some (NetError.invalidScope ['z']))) :=
  ⟨by decide, by decide, by decide, by decide, by decide, by decide,
    invalid_scope_error sampleDecode sampleManager ['z'] sampleStaticConfig
      (by decide) (by decide) (by decide) (by decide) (by decide) (by decide)⟩

/-- C8: a `peer:` address whose suffix does not decode makes `NetStat`,
`NetLimit` and `NetSetLimit` return the invalid-peer-ID error naming the
suffix, with an empty/zero result and, for `NetSetLimit`, the manager
returned unchanged; the conclusion holds for every manager, so no scope is
resolved or viewed (the result does not depend on any scope of `m`). -/
theorem invalid_peer_id_error (d : GoStr → Option PeerId) (m : Manager) (p : GoStr)
    (L : ResourceMgrScopeConfig) (h : d p = none) :
    NetStat d m (ResourceMgrPeerScopePrefix ++ p) =
      ({}, some (NetError.invalidPeerID p)) ∧
    NetLimit d m (ResourceMgrPeerScopePrefix ++ p) =
      (zeroScopeConfig, some (NetError.invalidPeerID p)) ∧
    NetSetLimit d m (ResourceMgrPeerScopePrefix ++ p) L =
      (m, some (NetError.invalidPeerID p)) := by
  refine ⟨?_, ?_, ?_⟩ <;>
    simp [NetStat, NetLimit, NetSetLimit, sysChars, transChars, svcChars, protoChars,
      peerChars, allChars, h]

/-- C8 witness: the address `peer:q` under a decoder that rejects every
identifier. -/
theorem invalid_peer_id_error_witness :
    noneDecode ['q'] = none ∧
    (NetStat noneDecode sampleManager (ResourceMgrPeerScopePrefix ++ ['q']) =
       ({}, some (NetError.invalidPeerID ['q'])) ∧
     NetLimit noneDecode sampleManager (ResourceMgrPeerScopePrefix ++ ['q']) =
       (zeroScopeConfig, some (NetError.invalidPeerID ['q'])) ∧
     NetSetLimit noneDecode sampleManager (ResourceMgrPeerScopePrefix ++ ['q'])
        sampleStaticConfig =
       (sampleManager, some (NetError.invalidPeerID ['q']))) :=
  ⟨rfl, invalid_peer_id_error noneDecode sampleManager ['q'] sampleStaticConfig rfl⟩

/-- C9: the literal address `all` is accepted only by `NetStat`: for every
manager, `NetLimit` and `NetSetLimit` with scope `all` fall through every
recognized case and return the invalid-scope error (with zero result and
unchanged manager). -/
theorem all_rejected_by_limit_ops (d : GoStr → Option PeerId) (m : Manager)
    (L : ResourceMgrScopeConfig) :
    NetLimit d m allScope = (zeroScopeConfig, some (NetError.invalidScope allScope)) ∧
    NetSetLimit d m allScope L = (m, some (NetError.invalidScope allScope)) := by
  constructor <;>
    simp [NetLimit, NetSetLimit, allChars, sysChars, transChars, svcChars, protoChars,
      peerChars]

/-- C10: a successful single-scope `NetStat` sets exactly the one field of
`NetStatOut` corresponding to the address's category (a single-entry map
keyed by the address suffix for the `svc:`/`proto:`/`peer:` forms) and
leaves the other four fields nil, as spelled out by `netStatSingleOut`. -/
theorem netStat_single_category (d : GoStr → Option PeerId) (m : Manager)
    (addr : ScopeAddress) (h : addr.decodesOk d = true) :
    NetStat d m addr.render = (netStatSingleOut d m addr, none) :=
  netStat_single d m addr h

/-- C10 witness: the single-entry output at the concrete address `peer:w`. -/
theorem netStat_single_category_witness :
    ((ScopeAddress.peer ['w']).decodesOk sampleDecode = true) ∧
    NetStat sampleDecode sampleManager (ScopeAddress.peer ['w']).render =
      (netStatSingleOut sampleDecode sampleManager (ScopeAddress.peer ['w']), none) :=
  ⟨rfl, netStat_single_category sampleDecode sampleManager (ScopeAddress.peer ['w']) rfl⟩

end Rcmgr
